import Mathlib

/-!
# Verification of the `golden` golden-file testing helper

Shallow embedding of `file.go` from the `go-tstr/golden` repository.

Strings are Go strings (modelled as Lean `String`); the pieces of the Go
standard library that the code calls (`strings.SplitN`, `strings.ReplaceAll`,
`path/filepath.Join`/`Clean`/`Dir`, `strconv.ParseBool`) are embedded as
executable Lean functions below.  The filesystem is an explicit state (an
association list of files plus a list of existing directories); the
`testing.T`-like reporter `T` is a state recording the test name, the
messages passed to `Errorf` and to `Logf`.  `FailNow` aborts the running
test, so every operation that can call it returns an `Option`: `none` means
the test was halted.
-/

namespace Golden

/-- State of the test reporter `T` (`Name`, the messages accumulated by
`Errorf`, and the messages accumulated by `Logf`).  `Helper()` is a no-op. -/
structure TState where
  name : String
  errors : List String
  logs : List String
deriving Repr, DecidableEq

/-- `t.Errorf(...)`: records a (already formatted) failure message; it does
not halt the test. -/
def TState.errorf (t : TState) (msg : String) : TState :=
  { t with errors := t.errors ++ [msg] }

/-- `t.Logf(...)`: records a log message. -/
def TState.logf (t : TState) (msg : String) : TState :=
  { t with logs := t.logs ++ [msg] }

/-- The filesystem visible to the package: an association list from path to
content (most recent write first) and the list of directories that exist. -/
structure FS where
  files : List (String × String)
  dirs : List String
deriving Repr, DecidableEq

/-- `os.ReadFile`: returns the content of the file, or the Go error string
`open <path>: no such file or directory` when the file does not exist. -/
def FS.readFile (fs : FS) (path : String) : Except String String :=
  match fs.files.lookup path with
  | some c => .ok c
  | none => .error ("open " ++ path ++ ": no such file or directory")

/-- `os.WriteFile`: creates or overwrites the file.  (OS-level write errors
are not modelled; the directory is ensured by `os.MkdirAll` just before every
write in this package.) -/
def FS.writeFile (fs : FS) (path content : String) : FS :=
  { fs with files := (path, content) :: fs.files }

/-- `os.MkdirAll`: idempotently ensures the directory exists.  (Only the leaf
directory is tracked; OS-level errors are not modelled.) -/
def FS.mkdirAll (fs : FS) (dir : String) : FS :=
  if fs.dirs.contains dir then fs else { fs with dirs := dir :: fs.dirs }

/-- Combined state threaded through the package: the filesystem, the value of
the `GOLDEN_FILES_RECREATE` environment variable as returned by `os.Getenv`
(`""` when unset), and the test reporter. -/
structure St where
  fs : FS
  env : String
  t : TState
deriving Repr, DecidableEq

/-! ## Embedded Go standard-library string and path helpers -/

/-- `strings.Split` on a single-character separator, on character lists. -/
def splitChars (sep : Char) : List Char → List (List Char)
  | [] => [[]]
  | c :: cs =>
    if c = sep then [] :: splitChars sep cs
    else
      match splitChars sep cs with
      | [] => [[c]]
      | h :: t => (c :: h) :: t

/-- Joins character lists with a single-character separator
(`strings.Join` with a one-character separator). -/
def intercalateChars (sep : Char) : List (List Char) → List Char
  | [] => []
  | [x] => x
  | x :: xs => x ++ sep :: intercalateChars sep xs

/-- `strings.Split s (String.singleton sep)`. -/
def goSplit (s : String) (sep : Char) : List String :=
  (splitChars sep s.toList).map String.mk

/-- `strings.SplitN(s, sep, 2)`: split at the first occurrence only. -/
def goSplitN2 (s : String) (sep : Char) : List String :=
  match goSplit s sep with
  | [] => []
  | [x] => [x]
  | x :: rest => [x, String.mk (intercalateChars sep (rest.map String.toList))]

/-- `strings.ReplaceAll(s, a, b)` for one-character `a` and `b`. -/
def goReplaceAll (s : String) (a b : Char) : String :=
  String.mk (s.toList.map fun c => if c = a then b else c)

/-- `path/filepath.Clean` (Unix rules), by the standard lexical algorithm:
drop empty and `.` segments, resolve `..` against preceding segments
(dropping it at the root of a rooted path), return `.` for an empty result. -/
def filepathClean (path : String) : String :=
  match path.toList with
  | [] => "."
  | c :: cs =>
    let rooted := c = '/'
    let segs := (splitChars '/' (c :: cs)).map String.mk
    let out := segs.foldl (fun acc seg =>
      if seg = "" ∨ seg = "." then acc
      else if seg = ".." then
        match acc.getLast? with
        | some last => if last = ".." then acc ++ [".."] else acc.dropLast
        | none => if rooted then [] else [".."]
      else acc ++ [seg]) ([] : List String)
    if out = [] then (if rooted then "/" else ".")
    else (if rooted then "/" else "") ++ String.mk (intercalateChars '/' (out.map String.toList))

/-- `path/filepath.Join`: joins the elements starting from the first
non-empty one with `/` and cleans the result; all-empty input gives `""`. -/
def filepathJoin (elems : List String) : String :=
  match elems.dropWhile (fun e => e = "") with
  | [] => ""
  | rest => filepathClean (String.mk (intercalateChars '/' (rest.map String.toList)))

/-- `path/filepath.Dir`: everything up to and including the final `/`,
cleaned (`.` when the path holds no `/`). -/
def filepathDir (path : String) : String :=
  filepathClean (String.mk (path.toList.reverse.dropWhile (fun c => c ≠ '/')).reverse)

/-- `strconv.ParseBool`: accepts exactly
`1, t, T, TRUE, true, True` and `0, f, F, FALSE, false, False`. -/
def strconvParseBool (str : String) : Except String Bool :=
  if str = "1" ∨ str = "t" ∨ str = "T" ∨ str = "true" ∨ str = "TRUE" ∨ str = "True" then
    .ok true
  else if str = "0" ∨ str = "f" ∨ str = "F" ∨ str = "false" ∨ str = "FALSE" ∨ str = "False" then
    .ok false
  else
    .error ("strconv.ParseBool: parsing \"" ++ str ++ "\": invalid syntax")

/-! ## The package itself (`file.go`) -/

/-- `NoError(t, err, msg)`: when `err` is non-nil, `t.Errorf("%s: %s", msg, err)`
then `t.FailNow()`.  The returned `Bool` is `true` when execution continues
and `false` when the test was halted by `FailNow`. -/
def NoError (t : TState) (err : Option String) (msg : String) : TState × Bool :=
  match err with
  | none => (t, true)
  | some e => (t.errorf (msg ++ ": " ++ e), false)

/-- `EqualWithDiff` (via `assert.Equal`): reports a message containing
`Not equal:` through `t.Errorf` on mismatch (the diff rendering of the
external assertion library is abstracted into this message) and returns
whether the strings were equal; it never halts. -/
def EqualWithDiff (t : TState) (expected actual : String) : TState × Bool :=
  if expected = actual then (t, true)
  else (t.errorf ("Not equal: expected: " ++ expected ++ " actual: " ++ actual), false)

/-- `TestNameToFilePath`: derives the golden-file path from `t.Name()`:
split the name at the first `/` into the main test name and the rest (both
equal to the whole name when there is no `/`), replace the remaining `/` in
the rest by `_`, `filepath.Join("./testdata/", main, rest + ".golden")`, and
replace every space in the composed path by `_`. -/
def TestNameToFilePath (t : TState) : String :=
  let split := goSplitN2 t.name '/'
  let names : String × String :=
    match split with
    | [m, r] => (m, goReplaceAll r '/' '_')
    | _ => (t.name, t.name)
  goReplaceAll (filepathJoin ["./testdata/", names.1, names.2 ++ ".golden"]) ' ' '_'

/-- `ParseRecreateFromEnv`: reads `GOLDEN_FILES_RECREATE` (the `env` field of
the state, passed here by `loadAndSaveFile`); unset (`""`) means `false`;
otherwise the value is parsed with `strconv.ParseBool`, and a parse failure
reports an error and halts the test (`NoError`). -/
def ParseRecreateFromEnv (env : String) (t : TState) : TState × Option Bool :=
  if env = "" then (t, some false)
  else
    match strconvParseBool env with
    | .ok b => (t, some b)
    | .error e =>
      match NoError t (some e)
          ("failed to parse GOLDEN_FILES_RECREATE env variable: \x27" ++ env ++ "\x27 to bool") with
      | (t1, _) => (t1, none)

/-- The strategy bundle `FileHandler`.  Each strategy receives the test
reporter (and, for `ShouldRecreate`, the environment variable value that
`os.Getenv` would return); strategies that can call `FailNow` return an
`Option` result, `none` meaning the test was halted. -/
structure FileHandler where
  FileName : TState → String
  ShouldRecreate : String → TState → TState × Option Bool
  ProcessContent : Option (TState → String → TState × Option String)
  Equal : TState → String → String → TState × Bool

/-- `FileHandler.loadAndSaveFile`: resolve the file name, ask `ShouldRecreate`;
when recreating, log, `os.MkdirAll(filepath.Dir(fileName), 0o755)` and
`os.WriteFile(fileName, data, 0o600)`; in every case read the file back,
halting (via `NoError`) when the read fails. -/
def FileHandler.loadAndSaveFile (h : FileHandler) (st : St) (data : String) :
    St × Option String :=
  let fileName := h.FileName st.t
  match h.ShouldRecreate st.env st.t with
  | (t1, none) => ({ st with t := t1 }, none)
  | (t1, some recreate) =>
    let st1 : St :=
      if recreate then
        { st with
          t := t1.logf ("recreating golden file: " ++ fileName)
          fs := (st.fs.mkdirAll (filepathDir fileName)).writeFile fileName data }
      else { st with t := t1 }
    match st1.fs.readFile fileName with
    | .ok b => (st1, some b)
    | .error e =>
      match NoError st1.t (some e) "failed to read golden file" with
      | (t2, _) => ({ st1 with t := t2 }, none)

/-- `FileHandler.Assert`: apply `ProcessContent` to `data` when configured
(reassigning `data`), then compare `loadAndSaveFile(t, data)` with `data`
using `Equal`.  `none` means some step called `FailNow`. -/
def FileHandler.Assert (h : FileHandler) (st : St) (data : String) : St × Option Bool :=
  let processed : St × Option String :=
    match h.ProcessContent with
    | none => (st, some data)
    | some pc =>
      match pc st.t data with
      | (t1, r) => ({ st with t := t1 }, r)
  match processed with
  | (st1, none) => (st1, none)
  | (st1, some data1) =>
    match h.loadAndSaveFile st1 data1 with
    | (st2, none) => (st2, none)
    | (st2, some expected) =>
      match h.Equal st2.t expected data1 with
      | (t3, ok) => ({ st2 with t := t3 }, some ok)

/-- An HTTP response: its status code and the remaining readable content of
its body stream. -/
structure Response where
  statusCode : Int
  body : String
deriving Repr, DecidableEq

/-- `FileHandler.Request`: `client.Do(req)` is modelled by its outcome
`doResult`.  A transport error halts (`NoError`); a status-code mismatch is
reported through `t.Errorf` without halting; the body is read in full
(`io.ReadAll`, draining the stream) and then restored
(`resp.Body = io.NopCloser(bytes.NewReader(body))`); the body is finally
passed to `Assert` and the returned flag is `Assert(...) && ok`. -/
def FileHandler.Request (h : FileHandler) (st : St) (doResult : Except String Response)
    (expectedStatusCode : Int) : St × Option (Response × Bool) :=
  match doResult with
  | .error e =>
    match NoError st.t (some e) "client.Do failed" with
    | (t1, _) => ({ st with t := t1 }, none)
  | .ok resp =>
    let (t1, ok) : TState × Bool :=
      if resp.statusCode ≠ expectedStatusCode then
        (st.t.errorf ("expected status code " ++ toString expectedStatusCode ++
          ", got " ++ toString resp.statusCode), false)
      else (st.t, true)
    let body := resp.body
    let drained : Response := { resp with body := "" }
    let restored : Response := { drained with body := body }
    match h.Assert { st with t := t1 } body with
    | (st2, none) => (st2, none)
    | (st2, some aok) => (st2, some (restored, aok && ok))

/-- The `DefaultHandler` used by the package-level `Assert` and `Request`. -/
def DefaultHandler : FileHandler :=
  { FileName := TestNameToFilePath
    ShouldRecreate := ParseRecreateFromEnv
    Equal := EqualWithDiff
    ProcessContent := none }

/-! ## Helper lemmas -/

/-- Reading back a freshly written file returns the written content. -/
theorem FS.readFile_writeFile (fs : FS) (p c : String) :
    (fs.writeFile p c).readFile p = .ok c := by
  simp [FS.writeFile, FS.readFile, List.lookup]

/-- Looking up a freshly written file finds the written content. -/
theorem FS.lookup_writeFile (fs : FS) (p c : String) :
    (fs.writeFile p c).files.lookup p = some c := by
  simp [FS.writeFile, List.lookup]

/-- `writeFile` does not remove directories. -/
theorem FS.writeFile_dirs (fs : FS) (p c : String) :
    (fs.writeFile p c).dirs = fs.dirs := rfl

theorem TState.errorf_name (t : TState) (m : String) : (t.errorf m).name = t.name := rfl

theorem TState.logf_name (t : TState) (m : String) : (t.logf m).name = t.name := rfl

theorem ParseRecreateFromEnv_true (t : TState) :
    ParseRecreateFromEnv "true" t = (t, some true) := rfl

theorem ParseRecreateFromEnv_unset (t : TState) :
    ParseRecreateFromEnv "" t = (t, some false) := rfl

theorem Response.eta (r : Response) :
    ({ statusCode := r.statusCode, body := r.body } : Response) = r := rfl

theorem DefaultHandler_FileName : DefaultHandler.FileName = TestNameToFilePath := rfl

theorem DefaultHandler_ShouldRecreate :
    DefaultHandler.ShouldRecreate = ParseRecreateFromEnv := rfl

theorem DefaultHandler_ProcessContent : DefaultHandler.ProcessContent = none := rfl

theorem DefaultHandler_Equal : DefaultHandler.Equal = EqualWithDiff := rfl

/-- `TestNameToFilePath` depends on the reporter only through its `name`. -/
theorem TestNameToFilePath_congr (t1 t2 : TState) (h : t1.name = t2.name) :
    TestNameToFilePath t1 = TestNameToFilePath t2 := by
  unfold TestNameToFilePath; rw [h]

theorem String.mk_toList (s : String) : String.mk s.toList = s := rfl

theorem String.toList_mk (l : List Char) : (String.mk l).toList = l := rfl

theorem String.mk_append (a b : List Char) :
    String.mk a ++ String.mk b = String.mk (a ++ b) := rfl

theorem String.toList_append (a b : String) :
    (a ++ b).toList = a.toList ++ b.toList := rfl

/-- `splitChars` always returns at least one (possibly empty) segment. -/
theorem splitChars_ne_nil (sep : Char) (l : List Char) : splitChars sep l ≠ [] := by
  cases l with
  | nil => simp [splitChars]
  | cons c cs =>
    by_cases h : c = sep
    · simp [splitChars, h]
    · simp only [splitChars, if_neg h]
      cases splitChars sep cs <;> simp

theorem splitChars_exists_cons (sep : Char) (l : List Char) :
    ∃ h t, splitChars sep l = h :: t := by
  cases hs : splitChars sep l with
  | nil => exact absurd hs (splitChars_ne_nil sep l)
  | cons h t => exact ⟨h, t, rfl⟩

/-- A leading separator contributes an empty first segment. -/
theorem splitChars_cons_sep (sep : Char) (l : List Char) :
    splitChars sep (sep :: l) = [] :: splitChars sep l := by
  simp [splitChars]

/-- Splitting after a separator-free prefix extends the first segment. -/
theorem splitChars_append_of_no_sep (sep : Char) (a b : List Char)
    (h : List Char) (t : List (List Char)) (ha : ∀ c ∈ a, c ≠ sep)
    (hb : splitChars sep b = h :: t) :
    splitChars sep (a ++ b) = (a ++ h) :: t := by
  induction a with
  | nil => simpa using hb
  | cons c cs ih =>
    have hc : c ≠ sep := ha c (by simp)
    have ih2 := ih (fun x hx => ha x (by simp [hx]))
    simp only [List.cons_append, splitChars, if_neg hc]
    have ih3 : splitChars sep (cs.append b) = (cs ++ h) :: t := ih2
    rw [ih3]

/-- A separator-free list is a single segment. -/
theorem splitChars_of_no_sep (sep : Char) (a : List Char)
    (ha : ∀ c ∈ a, c ≠ sep) : splitChars sep a = [a] := by
  have h := splitChars_append_of_no_sep sep a [] [] [] ha (by simp [splitChars])
  simpa using h

theorem intercalateChars_cons_cons (sep c : Char) (h : List Char)
    (t : List (List Char)) :
    intercalateChars sep ((c :: h) :: t) = c :: intercalateChars sep (h :: t) := by
  cases t <;> simp [intercalateChars]

/-- Rejoining the segments of a split recovers the original list. -/
theorem intercalateChars_splitChars (sep : Char) (l : List Char) :
    intercalateChars sep (splitChars sep l) = l := by
  induction l with
  | nil => simp [splitChars, intercalateChars]
  | cons c cs ih =>
    by_cases h : c = sep
    · subst h
      obtain ⟨h0, t0, hs⟩ := splitChars_exists_cons c cs
      rw [hs] at ih
      simp [splitChars, hs, intercalateChars, ih]
    · obtain ⟨h0, t0, hs⟩ := splitChars_exists_cons sep cs
      rw [hs] at ih
      simp only [splitChars, if_neg h, hs, intercalateChars_cons_cons, ih]

/-- Characters produced by the slash-to-underscore replacement are never
slashes. -/
theorem goReplaceAll_no_slash (s : String) :
    ∀ c ∈ (goReplaceAll s '/' '_').toList, c ≠ '/' := by
  intro c hc
  simp only [goReplaceAll, String.toList_mk, List.mem_map] at hc
  obtain ⟨a, ha, rfl⟩ := hc
  by_cases h : a = '/' <;> simp [h]

theorem mk_eq_testdata_path (x y : List Char) :
    String.mk ("testdata".toList ++ '/' :: (x ++ '/' :: y)) =
      "testdata/" ++ String.mk x ++ "/" ++ String.mk y := by
  rw [show ("testdata/" : String) = String.mk "testdata/".toList from rfl,
      show ("/" : String) = String.mk "/".toList from rfl,
      String.mk_append, String.mk_append, String.mk_append]
  apply congrArg
  rw [show "testdata/".toList = "testdata".toList ++ ['/'] by decide,
      show "/".toList = ['/'] by decide]
  simp [List.append_assoc]

/-- `filepath.Join("./testdata/", M, N)` for separator-free segments `M`, `N`
that are not empty, `.` or `..` is the cleaned `testdata/M/N` (no `./`). -/
theorem filepathJoin_testdata (M N : String)
    (hM : ∀ c ∈ M.toList, c ≠ '/') (hN : ∀ c ∈ N.toList, c ≠ '/')
    (hM1 : M ≠ "") (hM2 : M ≠ ".") (hM3 : M ≠ "..")
    (hN1 : N ≠ "") (hN2 : N ≠ ".") (hN3 : N ≠ "..") :
    filepathJoin ["./testdata/", M, N] = "testdata/" ++ M ++ "/" ++ N := by
  have h0 : filepathJoin ["./testdata/", M, N] =
      filepathClean (String.mk
        ("./testdata/".toList ++ '/' :: (M.toList ++ '/' :: N.toList))) := rfl
  have hL : "./testdata/".toList ++ '/' :: (M.toList ++ '/' :: N.toList) =
      '.' :: '/' :: ("testdata".toList ++ '/' :: '/' :: (M.toList ++ '/' :: N.toList)) := by
    rw [show "./testdata/".toList = '.' :: '/' :: ("testdata".toList ++ ['/']) by decide]
    simp [List.append_assoc]
  rw [h0, hL]
  have a0 : splitChars '/' N.toList = [N.toList] := splitChars_of_no_sep '/' N.toList hN
  have a1 : splitChars '/' ('/' :: N.toList) = [[], N.toList] := by
    rw [splitChars_cons_sep, a0]
  have a2 : splitChars '/' (M.toList ++ '/' :: N.toList) = [M.toList, N.toList] := by
    have h := splitChars_append_of_no_sep '/' M.toList ('/' :: N.toList) [] [N.toList] hM a1
    rw [List.append_nil] at h
    exact h
  have a3 : splitChars '/' ('/' :: '/' :: (M.toList ++ '/' :: N.toList)) =
      [[], [], M.toList, N.toList] := by
    rw [splitChars_cons_sep, splitChars_cons_sep, a2]
  have hT : ∀ c ∈ "testdata".toList, c ≠ '/' := by decide
  have a4 : splitChars '/' ("testdata".toList ++ '/' :: '/' :: (M.toList ++ '/' :: N.toList)) =
      ["testdata".toList, [], M.toList, N.toList] := by
    have h := splitChars_append_of_no_sep '/' "testdata".toList
      ('/' :: '/' :: (M.toList ++ '/' :: N.toList)) [] [[], M.toList, N.toList] hT a3
    rw [List.append_nil] at h
    exact h
  have a45 : splitChars '/'
      ('/' :: ("testdata".toList ++ '/' :: '/' :: (M.toList ++ '/' :: N.toList))) =
      [] :: ["testdata".toList, [], M.toList, N.toList] := by
    rw [splitChars_cons_sep, a4]
  have a5 : splitChars '/'
      ('.' :: '/' :: ("testdata".toList ++ '/' :: '/' :: (M.toList ++ '/' :: N.toList))) =
      [['.'], "testdata".toList, [], M.toList, N.toList] := by
    have h := splitChars_append_of_no_sep '/' ['.']
      ('/' :: ("testdata".toList ++ '/' :: '/' :: (M.toList ++ '/' :: N.toList)))
      [] ["testdata".toList, [], M.toList, N.toList] (by decide) a45
    rw [List.append_nil] at h
    exact h
  simp only [filepathClean, String.toList_mk, a5]
  simp only [List.map_cons, List.map_nil, String.mk_toList,
    show String.mk ['.'] = "." from rfl, show String.mk [] = "" from rfl]
  simp only [List.foldl_cons, List.foldl_nil]
  simp [hM1, hM2, hM3, hN1, hN2, hN3, intercalateChars]
  have hfinal := mk_eq_testdata_path M.toList N.toList
  rw [String.mk_toList, String.mk_toList] at hfinal
  exact hfinal

/-- `loadAndSaveFile` in a recreate pass: logs, ensures the directory, writes
the data and reads it back. -/
theorem loadAndSaveFile_recreate (h : FileHandler) (st : St) (data : String)
    (hsr : h.ShouldRecreate st.env st.t = (st.t, some true)) :
    h.loadAndSaveFile st data =
      ({ st with
          t := st.t.logf ("recreating golden file: " ++ h.FileName st.t)
          fs := (st.fs.mkdirAll (filepathDir (h.FileName st.t))).writeFile
                  (h.FileName st.t) data },
       some data) := by
  simp [FileHandler.loadAndSaveFile, hsr, FS.readFile_writeFile]

/-- `loadAndSaveFile` in a read-only pass with the file present: returns the
file content and changes nothing. -/
theorem loadAndSaveFile_readonly (h : FileHandler) (st : St) (data b : String)
    (hsr : h.ShouldRecreate st.env st.t = (st.t, some false))
    (hread : st.fs.readFile (h.FileName st.t) = .ok b) :
    h.loadAndSaveFile st data = (st, some b) := by
  simp [FileHandler.loadAndSaveFile, hsr, hread]

/-- `loadAndSaveFile` in a read-only pass with the file absent: reports the
read error and halts, touching nothing else. -/
theorem loadAndSaveFile_readonly_missing (h : FileHandler) (st : St) (data e : String)
    (hsr : h.ShouldRecreate st.env st.t = (st.t, some false))
    (hread : st.fs.readFile (h.FileName st.t) = .error e) :
    h.loadAndSaveFile st data =
      ({ st with t := st.t.errorf ("failed to read golden file: " ++ e) }, none) := by
  simp [FileHandler.loadAndSaveFile, hsr, hread, NoError]

/-- `DefaultHandler.Assert` in a read-only pass (`GOLDEN_FILES_RECREATE`
unset) with the golden file holding `g`: succeeds silently on a match,
records a `Not equal:` diagnostic and returns `false` on a mismatch. -/
theorem assert_default_readonly (st : St) (g data : String) (henv : st.env = "")
    (hlookup : st.fs.files.lookup (TestNameToFilePath st.t) = some g) :
    DefaultHandler.Assert st data =
      (if g = data then (st, some true)
       else ({ st with
                t := st.t.errorf ("Not equal: expected: " ++ g ++ " actual: " ++ data) },
             some false)) := by
  have hsr : DefaultHandler.ShouldRecreate st.env st.t = (st.t, some false) := by
    rw [DefaultHandler_ShouldRecreate, henv]; exact ParseRecreateFromEnv_unset st.t
  have hread : st.fs.readFile (DefaultHandler.FileName st.t) = .ok g := by
    rw [DefaultHandler_FileName]; simp [FS.readFile, hlookup]
  have hls := loadAndSaveFile_readonly DefaultHandler st data g hsr hread
  by_cases hgd : g = data <;>
    simp [FileHandler.Assert, DefaultHandler_ProcessContent, DefaultHandler_Equal,
      hls, EqualWithDiff, hgd]

/-- `DefaultHandler.Assert` in a read-only pass with the golden file absent:
records the read error, naming the resolved path, and halts. -/
theorem assert_default_missing (st : St) (data : String) (henv : st.env = "")
    (hlookup : st.fs.files.lookup (TestNameToFilePath st.t) = none) :
    DefaultHandler.Assert st data =
      ({ st with
          t := st.t.errorf ("failed to read golden file: " ++ ("open " ++
            TestNameToFilePath st.t ++ ": no such file or directory")) },
       none) := by
  have hsr : DefaultHandler.ShouldRecreate st.env st.t = (st.t, some false) := by
    rw [DefaultHandler_ShouldRecreate, henv]; exact ParseRecreateFromEnv_unset st.t
  have hread : st.fs.readFile (DefaultHandler.FileName st.t) =
      .error ("open " ++ TestNameToFilePath st.t ++ ": no such file or directory") := by
    rw [DefaultHandler_FileName]; simp [FS.readFile, hlookup]
  have hls := loadAndSaveFile_readonly_missing DefaultHandler st data _ hsr hread
  simp only [FileHandler.Assert, DefaultHandler_ProcessContent, hls]

/-- `DefaultHandler.Assert` in a recreate pass: writes `data` and succeeds. -/
theorem assert_default_recreate (st : St) (data : String) (henv : st.env = "true") :
    DefaultHandler.Assert st data =
      ({ st with
          t := st.t.logf ("recreating golden file: " ++ TestNameToFilePath st.t)
          fs := (st.fs.mkdirAll (filepathDir (TestNameToFilePath st.t))).writeFile
                  (TestNameToFilePath st.t) data },
       some true) := by
  have hsr : DefaultHandler.ShouldRecreate st.env st.t = (st.t, some true) := by
    rw [DefaultHandler_ShouldRecreate, henv]; exact ParseRecreateFromEnv_true st.t
  have hls := loadAndSaveFile_recreate DefaultHandler st data hsr
  simp [FileHandler.Assert, DefaultHandler_ProcessContent, DefaultHandler_Equal,
    DefaultHandler_FileName, hls, EqualWithDiff]

/-- A separator-free test name is returned whole by `strings.SplitN(.., 2)`. -/
theorem goSplitN2_no_sep (s : String) (hs : ∀ c ∈ s.toList, c ≠ '/') :
    goSplitN2 s '/' = [s] := by
  unfold goSplitN2 goSplit
  rw [splitChars_of_no_sep '/' s.toList hs]
  simp [String.mk_toList]

/-- `strings.SplitN(main ++ "/" ++ rest, "/", 2)` recovers `main` and `rest`
when `main` is separator-free. -/
theorem goSplitN2_split (s main rest : String)
    (hname : s.toList = main.toList ++ '/' :: rest.toList)
    (hmain : ∀ c ∈ main.toList, c ≠ '/') :
    goSplitN2 s '/' = [main, rest] := by
  obtain ⟨h0, t0, hsp⟩ := splitChars_exists_cons '/' rest.toList
  have hb : splitChars '/' ('/' :: rest.toList) = [] :: h0 :: t0 := by
    rw [splitChars_cons_sep, hsp]
  have hsplit : splitChars '/' s.toList = main.toList :: h0 :: t0 := by
    rw [hname]
    have h := splitChars_append_of_no_sep '/' main.toList ('/' :: rest.toList)
      [] (h0 :: t0) hmain hb
    rw [List.append_nil] at h
    exact h
  unfold goSplitN2 goSplit
  rw [hsplit]
  simp only [List.map_cons, String.mk_toList, List.map_map]
  have hrejoin : intercalateChars '/'
      ((h0 :: t0).map (String.toList ∘ String.mk)) = rest.toList := by
    have hmap : (h0 :: t0).map (String.toList ∘ String.mk) = h0 :: t0 := by
      have hid : (String.toList ∘ String.mk) = id := by
        funext l; simp [String.toList_mk]
      rw [hid, List.map_id]
    rw [hmap, ← hsp, intercalateChars_splitChars]
  show [main, String.mk (intercalateChars '/' ((h0 :: t0).map (String.toList ∘ String.mk)))] =
    [main, rest]
  rw [hrejoin, String.mk_toList]

/-- A string ending in `.golden` is neither empty nor `.` nor `..`. -/
theorem ne_short_of_golden_suffix (x : String) :
    x ++ ".golden" ≠ "" ∧ x ++ ".golden" ≠ "." ∧ x ++ ".golden" ≠ ".." := by
  have h7 : ".golden".toList.length = 7 := by decide
  have k0 : ("" : String).toList.length = 0 := by decide
  have k1 : ("." : String).toList.length = 1 := by decide
  have k2 : (".." : String).toList.length = 2 := by decide
  refine ⟨fun h => ?_, fun h => ?_, fun h => ?_⟩
  · have hlen := congrArg (fun s : String => s.toList.length) h
    simp only [String.toList_append, List.length_append, h7, k0] at hlen
    omega
  · have hlen := congrArg (fun s : String => s.toList.length) h
    simp only [String.toList_append, List.length_append, h7, k1] at hlen
    omega
  · have hlen := congrArg (fun s : String => s.toList.length) h
    simp only [String.toList_append, List.length_append, h7, k2] at hlen
    omega

/-- Appending `.golden` to a separator-free string stays separator-free. -/
theorem no_slash_golden (x : String) (hx : ∀ c ∈ x.toList, c ≠ '/') :
    ∀ c ∈ (x ++ ".golden").toList, c ≠ '/' := by
  intro c hc
  rw [String.toList_append] at hc
  rcases List.mem_append.mp hc with h | h
  · exact hx c h
  · have hg : ∀ c ∈ ".golden".toList, c ≠ '/' := by decide
    exact hg c h

/-! ## Claims -/

/-- C2 (counterexample): the resolver does not return `./testdata/Top/Top.golden`
for the identifier `Top`: `filepath.Join` cleans the composed path, dropping
the leading `./`. -/
theorem C2_no_dot_slash_cex :
    TestNameToFilePath ⟨"Top", [], []⟩ ≠ "./testdata/Top/Top.golden" := by decide

/-- C2 (amended): for every test identifier whose top-level segment is a
normal file name (not empty, `.` or `..`), the resolver returns the
`filepath.Join`-cleaned path `testdata/<TopLevelName>/<Rest with slashes
replaced by underscores>.golden` — without the leading `./` — with every
space in the composed path replaced by `_`; in particular
resolve("Top") = "testdata/Top/Top.golden", resolve("Top/Sub") =
"testdata/Top/Sub.golden", resolve("Top/Sub/Nested") =
"testdata/Top/Sub_Nested.golden", and resolve("Top/Sub Name") =
"testdata/Top/Sub_Name.golden". -/
theorem C2_testNameToFilePath_spec :
    (∀ (t : TState) (main rest : String),
      t.name.toList = main.toList ++ '/' :: rest.toList →
      (∀ c ∈ main.toList, c ≠ '/') →
      main ≠ "" → main ≠ "." → main ≠ ".." →
      TestNameToFilePath t =
        goReplaceAll ("testdata/" ++ main ++ "/" ++
          (goReplaceAll rest '/' '_' ++ ".golden")) ' ' '_') ∧
    (∀ t : TState, (∀ c ∈ t.name.toList, c ≠ '/') →
      t.name ≠ "" → t.name ≠ "." → t.name ≠ ".." →
      TestNameToFilePath t =
        goReplaceAll ("testdata/" ++ t.name ++ "/" ++ (t.name ++ ".golden")) ' ' '_') ∧
    TestNameToFilePath ⟨"Top", [], []⟩ = "testdata/Top/Top.golden" ∧
    TestNameToFilePath ⟨"Top/Sub", [], []⟩ = "testdata/Top/Sub.golden" ∧
    TestNameToFilePath ⟨"Top/Sub/Nested", [], []⟩ = "testdata/Top/Sub_Nested.golden" ∧
    TestNameToFilePath ⟨"Top/Sub Name", [], []⟩ = "testdata/Top/Sub_Name.golden" := by
  refine ⟨?_, ?_, by decide, by decide, by decide, by decide⟩
  · intro t main rest hname hmain h1 h2 h3
    unfold TestNameToFilePath
    rw [goSplitN2_split t.name main rest hname hmain]
    show goReplaceAll
      (filepathJoin ["./testdata/", main, goReplaceAll rest '/' '_' ++ ".golden"]) ' ' '_' = _
    obtain ⟨k0, k1, k2⟩ := ne_short_of_golden_suffix (goReplaceAll rest '/' '_')
    rw [filepathJoin_testdata main (goReplaceAll rest '/' '_' ++ ".golden") hmain
      (no_slash_golden _ (goReplaceAll_no_slash rest)) h1 h2 h3 k0 k1 k2]
  · intro t hns h1 h2 h3
    unfold TestNameToFilePath
    rw [goSplitN2_no_sep t.name hns]
    show goReplaceAll
      (filepathJoin ["./testdata/", t.name, t.name ++ ".golden"]) ' ' '_' = _
    obtain ⟨k0, k1, k2⟩ := ne_short_of_golden_suffix t.name
    rw [filepathJoin_testdata t.name (t.name ++ ".golden") hns
      (no_slash_golden _ hns) h1 h2 h3 k0 k1 k2]

/-- C2 (witness): the resolver maps `Top/Sub Name/Deep` to the cleaned,
underscore-composed path, and `TestFunc` to `testdata/TestFunc/TestFunc.golden`. -/
theorem C2_testNameToFilePath_spec_witness :
    TestNameToFilePath ⟨"Top/Sub Name/Deep", [], []⟩ =
      goReplaceAll ("testdata/" ++ "Top" ++ "/" ++
        (goReplaceAll "Sub Name/Deep" '/' '_' ++ ".golden")) ' ' '_' ∧
    TestNameToFilePath ⟨"TestFunc", [], []⟩ =
      goReplaceAll ("testdata/" ++ "TestFunc" ++ "/" ++ ("TestFunc" ++ ".golden")) ' ' '_' :=
  ⟨C2_testNameToFilePath_spec.1 ⟨"Top/Sub Name/Deep", [], []⟩ "Top" "Sub Name/Deep"
      (by decide) (by decide) (by decide) (by decide) (by decide),
   C2_testNameToFilePath_spec.2.1 ⟨"TestFunc", [], []⟩
      (by decide) (by decide) (by decide) (by decide)⟩

/-- C9: path resolution is a pure, total, deterministic function of the test
identifier alone: for any two program states whose reporters carry the same
test name — whatever their filesystems, environment values, recorded errors
or logs — the resolved golden path is the same string.  (Totality and
freedom from disk access are visible in the type of `TestNameToFilePath`: it
consumes no `FS` and always returns a `String`.) -/
theorem C9_testNameToFilePath_pure (st1 st2 : St) (h : st1.t.name = st2.t.name) :
    TestNameToFilePath st1.t = TestNameToFilePath st2.t :=
  TestNameToFilePath_congr st1.t st2.t h

/-- C9 (witness): two states with the same test name but different
filesystems, environment values and reporter histories resolve to the same
path. -/
theorem C9_testNameToFilePath_pure_witness :
    TestNameToFilePath (⟨"Top/Sub", ["err"], []⟩ : TState) =
      TestNameToFilePath (⟨"Top/Sub", [], ["log"]⟩ : TState) :=
  C9_testNameToFilePath_pure
    ⟨⟨[("f", "c")], ["d"]⟩, "true", ⟨"Top/Sub", ["err"], []⟩⟩
    ⟨⟨[], []⟩, "", ⟨"Top/Sub", [], ["log"]⟩⟩ rfl

/-- C4 (counterexample): with `GOLDEN_FILES_RECREATE` set to `"t"` — a string
that is not a letter-case variant of `"true"`, `"false"`, `"1"` or `"0"` —
the default recreate policy neither reports an error nor halts: it returns
`true`, because `strconv.ParseBool` also accepts `t/T/f/F`. -/
theorem C4_parseRecreate_claim_cex :
    ParseRecreateFromEnv "t" ⟨"Top", [], []⟩ = (⟨"Top", [], []⟩, some true) ∧
    "t".toList.map Char.toLower ≠ "true".toList.map Char.toLower ∧
    "t".toList.map Char.toLower ≠ "false".toList.map Char.toLower ∧
    "t".toList.map Char.toLower ≠ "1".toList.map Char.toLower ∧
    "t".toList.map Char.toLower ≠ "0".toList.map Char.toLower := by
  refine ⟨rfl, ?_, ?_, ?_, ?_⟩ <;> decide

/-- C4 (amended): the default recreate policy reads `GOLDEN_FILES_RECREATE`
on each call; unset means `false`; the exact strings accepted by Go's
`strconv.ParseBool` — `1, t, T, TRUE, true, True` and
`0, f, F, FALSE, false, False` — yield the parsed value; any other non-empty
string makes it report an error and halt the test. -/
theorem C4_parseRecreate_spec (t : TState) :
    ParseRecreateFromEnv "" t = (t, some false) ∧
    (∀ s, (s = "1" ∨ s = "t" ∨ s = "T" ∨ s = "true" ∨ s = "TRUE" ∨ s = "True") →
      ParseRecreateFromEnv s t = (t, some true)) ∧
    (∀ s, (s = "0" ∨ s = "f" ∨ s = "F" ∨ s = "false" ∨ s = "FALSE" ∨ s = "False") →
      ParseRecreateFromEnv s t = (t, some false)) ∧
    (∀ s, s ≠ "" →
      ¬(s = "1" ∨ s = "t" ∨ s = "T" ∨ s = "true" ∨ s = "TRUE" ∨ s = "True") →
      ¬(s = "0" ∨ s = "f" ∨ s = "F" ∨ s = "false" ∨ s = "FALSE" ∨ s = "False") →
      ParseRecreateFromEnv s t =
        (t.errorf (("failed to parse GOLDEN_FILES_RECREATE env variable: \x27" ++ s ++
            "\x27 to bool") ++ ": " ++
          ("strconv.ParseBool: parsing \"" ++ s ++ "\": invalid syntax")), none)) := by
  refine ⟨rfl, ?_, ?_, ?_⟩
  · intro s hs
    rcases hs with rfl | rfl | rfl | rfl | rfl | rfl <;> rfl
  · intro s hs
    rcases hs with rfl | rfl | rfl | rfl | rfl | rfl <;> rfl
  · intro s h0 h1 h2
    rw [ParseRecreateFromEnv, if_neg h0, strconvParseBool, if_neg h1, if_neg h2]
    rfl

/-- C4 (witness): with the variable set to `"yes"` the policy records the
parse-failure message and halts. -/
theorem C4_parseRecreate_spec_witness :
    ParseRecreateFromEnv "yes" ⟨"Top", [], []⟩ =
      (TState.errorf ⟨"Top", [], []⟩
        (("failed to parse GOLDEN_FILES_RECREATE env variable: \x27" ++ "yes" ++
            "\x27 to bool") ++ ": " ++
          ("strconv.ParseBool: parsing \"" ++ "yes" ++ "\": invalid syntax")), none) :=
  (C4_parseRecreate_spec ⟨"Top", [], []⟩).2.2.2 "yes" (by decide) (by decide) (by decide)

/-- C5: with the default equality strategy and recreate off, a content
mismatch between the golden file (holding `g`) and the actual data is a
non-halting failure: `Assert` returns `some false` (not `none`, i.e.
`FailNow` is never invoked), after recording one `Not equal:` diagnostic
through `Errorf`; the filesystem is untouched. -/
theorem C5_assert_mismatch_nonhalting (st : St) (g data : String) (henv : st.env = "")
    (hlookup : st.fs.files.lookup (TestNameToFilePath st.t) = some g)
    (hne : g ≠ data) :
    DefaultHandler.Assert st data =
      ({ st with
          t := st.t.errorf ("Not equal: expected: " ++ g ++ " actual: " ++ data) },
       some false) := by
  rw [assert_default_readonly st g data henv hlookup, if_neg hne]

/-- C5 (witness): a concrete mismatch returns `some false` with the
diagnostic recorded. -/
theorem C5_assert_mismatch_nonhalting_witness :
    DefaultHandler.Assert ⟨⟨[("testdata/Top/Top.golden", "old")], []⟩, "", ⟨"Top", [], []⟩⟩
        "new" =
      ({ (⟨⟨[("testdata/Top/Top.golden", "old")], []⟩, "", ⟨"Top", [], []⟩⟩ : St) with
          t := TState.errorf ⟨"Top", [], []⟩ ("Not equal: expected: " ++ "old" ++
            " actual: " ++ "new") },
       some false) :=
  C5_assert_mismatch_nonhalting
    ⟨⟨[("testdata/Top/Top.golden", "old")], []⟩, "", ⟨"Top", [], []⟩⟩
    "old" "new" rfl (by decide) (by decide)

/-- C6: with recreate off and no file at the resolved path, `Assert` records
an error message that names the resolved path and halts the test
(`Errorf` followed by `FailNow`, so the result is `none`). -/
theorem C6_assert_missing_halts (st : St) (data : String) (henv : st.env = "")
    (hlookup : st.fs.files.lookup (TestNameToFilePath st.t) = none) :
    DefaultHandler.Assert st data =
      ({ st with
          t := st.t.errorf ("failed to read golden file: " ++ ("open " ++
            TestNameToFilePath st.t ++ ": no such file or directory")) },
       none) :=
  assert_default_missing st data henv hlookup

/-- C6 (witness): on an empty filesystem a read-only `Assert` halts with the
message naming the resolved path. -/
theorem C6_assert_missing_halts_witness :
    DefaultHandler.Assert ⟨⟨[], []⟩, "", ⟨"Top", [], []⟩⟩ "data" =
      ({ (⟨⟨[], []⟩, "", ⟨"Top", [], []⟩⟩ : St) with
          t := TState.errorf ⟨"Top", [], []⟩ ("failed to read golden file: " ++ ("open " ++
            TestNameToFilePath ⟨"Top", [], []⟩ ++ ": no such file or directory")) },
       none) :=
  C6_assert_missing_halts ⟨⟨[], []⟩, "", ⟨"Top", [], []⟩⟩ "data" rfl rfl

/-- C10: when recreate is off and the golden-file read fails, `Assert`
leaves the filesystem exactly as it was: no directory is created and no
file is written on this error path. -/
theorem C10_assert_missing_preserves_fs (st : St) (data : String) (henv : st.env = "")
    (hlookup : st.fs.files.lookup (TestNameToFilePath st.t) = none) :
    (DefaultHandler.Assert st data).1.fs = st.fs := by
  rw [assert_default_missing st data henv hlookup]

/-- C10 (witness): the empty filesystem is unchanged by the failing
read-only `Assert`. -/
theorem C10_assert_missing_preserves_fs_witness :
    (DefaultHandler.Assert ⟨⟨[], []⟩, "", ⟨"TestDirFail", [], []⟩⟩ "data").1.fs =
      (⟨[], []⟩ : FS) :=
  C10_assert_missing_preserves_fs ⟨⟨[], []⟩, "", ⟨"TestDirFail", [], []⟩⟩ "data" rfl rfl

/-- C3: round-trip with no content transform.  With recreate on,
`Assert(id, X)` returns `some true` and leaves the file at the resolved path
containing exactly `X`; running `Assert(id, X)` again with recreate off
returns `some true` as well and changes nothing at all (in particular the
file content is unchanged). -/
theorem C3_assert_roundtrip (st : St) (X : String) (henv : st.env = "true") :
    (DefaultHandler.Assert st X).2 = some true ∧
    (DefaultHandler.Assert st X).1.fs.readFile (TestNameToFilePath st.t) = .ok X ∧
    DefaultHandler.Assert { (DefaultHandler.Assert st X).1 with env := "" } X =
      ({ (DefaultHandler.Assert st X).1 with env := "" }, some true) := by
  have h1 := assert_default_recreate st X henv
  have hname : (DefaultHandler.Assert st X).1.t.name = st.t.name := by rw [h1]; rfl
  have hfs : (DefaultHandler.Assert st X).1.fs =
      (st.fs.mkdirAll (filepathDir (TestNameToFilePath st.t))).writeFile
        (TestNameToFilePath st.t) X := by rw [h1]
  refine ⟨by rw [h1], ?_, ?_⟩
  · rw [hfs]; exact FS.readFile_writeFile _ _ _
  · have hpath : TestNameToFilePath ({ (DefaultHandler.Assert st X).1 with env := "" } : St).t =
        TestNameToFilePath st.t := TestNameToFilePath_congr _ _ hname
    have hl : ({ (DefaultHandler.Assert st X).1 with env := "" } : St).fs.files.lookup
        (TestNameToFilePath ({ (DefaultHandler.Assert st X).1 with env := "" } : St).t) =
        some X := by
      rw [hpath]
      show (DefaultHandler.Assert st X).1.fs.files.lookup _ = some X
      rw [hfs]
      exact FS.lookup_writeFile _ _ _
    have h2 := assert_default_readonly _ X X rfl hl
    rw [h2, if_pos rfl]

/-- C3 (witness): starting from the empty filesystem with
`GOLDEN_FILES_RECREATE=true` and test name `Top`, the recreate pass and the
following read-only pass both succeed and the file holds exactly `X`. -/
theorem C3_assert_roundtrip_witness :
    (DefaultHandler.Assert ⟨⟨[], []⟩, "true", ⟨"Top", [], []⟩⟩ "X").2 = some true ∧
    (DefaultHandler.Assert ⟨⟨[], []⟩, "true", ⟨"Top", [], []⟩⟩ "X").1.fs.readFile
      (TestNameToFilePath ⟨"Top", [], []⟩) = .ok "X" ∧
    DefaultHandler.Assert
      { (DefaultHandler.Assert ⟨⟨[], []⟩, "true", ⟨"Top", [], []⟩⟩ "X").1 with env := "" } "X" =
      ({ (DefaultHandler.Assert ⟨⟨[], []⟩, "true", ⟨"Top", [], []⟩⟩ "X").1 with env := "" },
       some true) :=
  C3_assert_roundtrip ⟨⟨[], []⟩, "true", ⟨"Top", [], []⟩⟩ "X" rfl

/-- C1 (counterexample): with a `ProcessContent` transform that appends `!`
and the recreate policy returning true, `Assert` on data `X` stores the
transformed value `X!` in the golden file — not the original pre-transform
actual data `X`.  (`data` is reassigned to the transformed value before
`loadAndSaveFile` runs.) -/
theorem C1_writes_transformed_cex :
    (FileHandler.Assert
        { FileName := TestNameToFilePath
          ShouldRecreate := ParseRecreateFromEnv
          ProcessContent := some (fun t s => (t, some (s ++ "!")))
          Equal := EqualWithDiff }
        ⟨⟨[], []⟩, "true", ⟨"Top", [], []⟩⟩ "X").1.fs.readFile "testdata/Top/Top.golden" =
      .ok "X!" ∧
    (FileHandler.Assert
        { FileName := TestNameToFilePath
          ShouldRecreate := ParseRecreateFromEnv
          ProcessContent := some (fun t s => (t, some (s ++ "!")))
          Equal := EqualWithDiff }
        ⟨⟨[], []⟩, "true", ⟨"Top", [], []⟩⟩ "X").1.fs.readFile "testdata/Top/Top.golden" ≠
      .ok "X" := by
  refine ⟨rfl, fun h => ?_⟩
  rw [show (FileHandler.Assert
      { FileName := TestNameToFilePath
        ShouldRecreate := ParseRecreateFromEnv
        ProcessContent := some (fun t s => (t, some (s ++ "!")))
        Equal := EqualWithDiff }
      ⟨⟨[], []⟩, "true", ⟨"Top", [], []⟩⟩ "X").1.fs.readFile "testdata/Top/Top.golden" =
      Except.ok "X!" from rfl] at h
  injection h with h2
  exact absurd h2 (by decide)

/-- C1 (amended): when a `ProcessContent` transform is configured and
`ShouldRecreate` returns true, the value written to the golden file is the
transformed `processedActual` (not the original actual data), and the
comparison also uses the transformed value, so the assertion succeeds. -/
theorem C1_assert_writes_processed (g : String → String) (st : St) (data : String)
    (henv : st.env = "true") :
    (FileHandler.Assert
        { FileName := TestNameToFilePath
          ShouldRecreate := ParseRecreateFromEnv
          ProcessContent := some (fun t s => (t, some (g s)))
          Equal := EqualWithDiff } st data).2 = some true ∧
    (FileHandler.Assert
        { FileName := TestNameToFilePath
          ShouldRecreate := ParseRecreateFromEnv
          ProcessContent := some (fun t s => (t, some (g s)))
          Equal := EqualWithDiff } st data).1.fs.readFile (TestNameToFilePath st.t) =
      .ok (g data) := by
  have hsr : ({ FileName := TestNameToFilePath
                ShouldRecreate := ParseRecreateFromEnv
                ProcessContent := some (fun t s => (t, some (g s)))
                Equal := EqualWithDiff } : FileHandler).ShouldRecreate st.env st.t =
      (st.t, some true) := by
    show ParseRecreateFromEnv st.env st.t = _
    rw [henv]; exact ParseRecreateFromEnv_true st.t
  have hls := loadAndSaveFile_recreate
    { FileName := TestNameToFilePath
      ShouldRecreate := ParseRecreateFromEnv
      ProcessContent := some (fun t s => (t, some (g s)))
      Equal := EqualWithDiff } st (g data) hsr
  constructor <;>
    simp [FileHandler.Assert, hls, EqualWithDiff, FS.readFile_writeFile]

/-- C1 (witness): prefixing transform `p:` on data `X` under recreate stores
`p:X` and the assertion succeeds. -/
theorem C1_assert_writes_processed_witness :
    (FileHandler.Assert
        { FileName := TestNameToFilePath
          ShouldRecreate := ParseRecreateFromEnv
          ProcessContent := some (fun t s => (t, some ("p:" ++ s)))
          Equal := EqualWithDiff }
        ⟨⟨[], []⟩, "true", ⟨"Top", [], []⟩⟩ "X").2 = some true ∧
    (FileHandler.Assert
        { FileName := TestNameToFilePath
          ShouldRecreate := ParseRecreateFromEnv
          ProcessContent := some (fun t s => (t, some ("p:" ++ s)))
          Equal := EqualWithDiff }
        ⟨⟨[], []⟩, "true", ⟨"Top", [], []⟩⟩ "X").1.fs.readFile
      (TestNameToFilePath ⟨"Top", [], []⟩) = .ok ("p:" ++ "X") :=
  C1_assert_writes_processed (fun s => "p:" ++ s) ⟨⟨[], []⟩, "true", ⟨"Top", [], []⟩⟩ "X" rfl

/-- C8: for every state — any recreate-policy value and any filesystem —
whenever `Request` returns, the returned response is the original one, so its
body stream again holds exactly the bytes `Request` consumed
(drain-then-restore); moreover the value `Request` returns is exactly the
outcome of the golden-file comparison (`Assert`) run on those same bytes
`resp.body`, paired with the original response — the bytes compared against
the golden file are the bytes the caller can still read. -/
theorem C8_request_body_restored (st : St) (resp : Response) (code : Int) :
    (∀ (r : Response) (ok : Bool),
      (DefaultHandler.Request st (.ok resp) code).2 = some (r, ok) → r = resp) ∧
    (DefaultHandler.Request st (.ok resp) code).2 =
      ((DefaultHandler.Assert
          { st with t :=
              if resp.statusCode ≠ code then
                st.t.errorf ("expected status code " ++ toString code ++ ", got " ++
                  toString resp.statusCode)
              else st.t } resp.body).2.map
        (fun aok => (resp, aok && decide (resp.statusCode = code)))) := by
  have key : (DefaultHandler.Request st (.ok resp) code).2 =
      ((DefaultHandler.Assert
          { st with t :=
              if resp.statusCode ≠ code then
                st.t.errorf ("expected status code " ++ toString code ++ ", got " ++
                  toString resp.statusCode)
              else st.t } resp.body).2.map
        (fun aok => (resp, aok && decide (resp.statusCode = code)))) := by
    by_cases hsc : resp.statusCode = code
    · subst hsc
      rcases hA : DefaultHandler.Assert { st with t := st.t } resp.body with ⟨st2, _ | aok⟩ <;>
        simp [FileHandler.Request, hA, Response.eta]
    · rcases hA : DefaultHandler.Assert
        { st with t := st.t.errorf ("expected status code " ++ toString code ++ ", got " ++
          toString resp.statusCode) } resp.body with ⟨st2, _ | aok⟩ <;>
        simp [FileHandler.Request, hA, hsc, Response.eta]
  refine ⟨?_, key⟩
  intro r ok hr
  rw [key] at hr
  cases hA2 : (DefaultHandler.Assert
      { st with t :=
          if resp.statusCode ≠ code then
            st.t.errorf ("expected status code " ++ toString code ++ ", got " ++
              toString resp.statusCode)
          else st.t } resp.body).2 with
  | none => rw [hA2] at hr; exact absurd hr (by simp)
  | some aok =>
    rw [hA2] at hr
    simp only [Option.map_some', Option.some.injEq, Prod.mk.injEq] at hr
    exact hr.1.symm

/-- C8 (witness): in the read-only scenario (recreate off, golden file
holding `G`, response status `200` against expected `400`), `Request`
returns `some (resp, false)`: applying the theorem there shows the returned
response is the original and the returned value is the mapped outcome of the
comparison of the body `B`. -/
theorem C8_request_body_restored_witness :
    (⟨200, "B"⟩ : Response) = ⟨200, "B"⟩ ∧
    (DefaultHandler.Request ⟨⟨[("testdata/Top/Top.golden", "G")], []⟩, "", ⟨"Top", [], []⟩⟩
        (.ok ⟨200, "B"⟩) 400).2 =
      ((DefaultHandler.Assert
          { (⟨⟨[("testdata/Top/Top.golden", "G")], []⟩, "", ⟨"Top", [], []⟩⟩ : St) with t :=
              (if (200 : Int) ≠ 400 then
                TState.errorf ⟨"Top", [], []⟩ ("expected status code " ++ toString (400 : Int) ++
                  ", got " ++ toString (200 : Int))
              else ⟨"Top", [], []⟩) } "B").2.map
        (fun aok => ((⟨200, "B"⟩ : Response), aok && decide ((200 : Int) = 400)))) :=
  ⟨(C8_request_body_restored ⟨⟨[("testdata/Top/Top.golden", "G")], []⟩, "", ⟨"Top", [], []⟩⟩
      ⟨200, "B"⟩ 400).1 ⟨200, "B"⟩ false (by decide),
   (C8_request_body_restored ⟨⟨[("testdata/Top/Top.golden", "G")], []⟩, "", ⟨"Top", [], []⟩⟩
      ⟨200, "B"⟩ 400).2⟩

/-- C7: with the default handler, recreate off and the golden file holding
`g`: (1) for every response and expected status code, `Request` returns the
response together with `ok` equal to the conjunction of the body match and
the status match — so `ok = true` iff both hold, and the body comparison
runs even when the status mismatches; (2) a status mismatch is recorded
through `Errorf` (first of the new messages) while the test continues; and
(3) a transport-level error from the client halts the test (`none`). -/
theorem C7_request_spec (st : St) (g : String) (henv : st.env = "")
    (hlookup : st.fs.files.lookup (TestNameToFilePath st.t) = some g) :
    (∀ (resp : Response) (code : Int),
      (DefaultHandler.Request st (.ok resp) code).2 =
        some (resp, decide (g = resp.body) && decide (resp.statusCode = code))) ∧
    (∀ (resp : Response) (code : Int), resp.statusCode ≠ code →
      ∃ rest, (DefaultHandler.Request st (.ok resp) code).1.t.errors =
        st.t.errors ++ ("expected status code " ++ toString code ++ ", got " ++
          toString resp.statusCode) :: rest) ∧
    (∀ (e : String) (code : Int),
      (DefaultHandler.Request st (.error e) code).2 = none) := by
  refine ⟨?_, ?_, ?_⟩
  · intro resp code
    by_cases hsc : resp.statusCode = code
    · subst hsc
      have ha := assert_default_readonly { st with t := st.t } g resp.body henv hlookup
      by_cases hgb : g = resp.body <;>
        simp [FileHandler.Request, ha, hgb, Response.eta]
    · have ha := assert_default_readonly
        { st with t := st.t.errorf ("expected status code " ++ toString code ++
          ", got " ++ toString resp.statusCode) } g resp.body henv hlookup
      by_cases hgb : g = resp.body <;>
        simp [FileHandler.Request, ha, hgb, hsc, Response.eta]
  · intro resp code hsc
    have ha := assert_default_readonly
      { st with t := st.t.errorf ("expected status code " ++ toString code ++
        ", got " ++ toString resp.statusCode) } g resp.body henv hlookup
    by_cases hgb : g = resp.body
    · exact ⟨[], by
        simp [FileHandler.Request, ha, hgb, hsc, Response.eta]
        simp [TState.errorf]⟩
    · exact ⟨["Not equal: expected: " ++ g ++ " actual: " ++ resp.body], by
        simp [FileHandler.Request, ha, hgb, hsc, Response.eta]
        simp [TState.errorf, List.append_assoc]⟩
  · intro e code
    rfl

/-- C7 (witness): with the golden file holding `B`, a response with matching
status and body yields `ok = true`; the same response against expected
status `200` yields `ok = false` with the status mismatch recorded first and
the test not halted; a transport error halts. -/
theorem C7_request_spec_witness :
    (DefaultHandler.Request ⟨⟨[("testdata/Top/Top.golden", "B")], []⟩, "", ⟨"Top", [], []⟩⟩
        (.ok ⟨400, "B"⟩) 400).2 = some (⟨400, "B"⟩, true) ∧
    (DefaultHandler.Request ⟨⟨[("testdata/Top/Top.golden", "B")], []⟩, "", ⟨"Top", [], []⟩⟩
        (.error "dial tcp: connection refused") 400).2 = none := by
  have h := C7_request_spec
    ⟨⟨[("testdata/Top/Top.golden", "B")], []⟩, "", ⟨"Top", [], []⟩⟩ "B" rfl (by decide)
  exact ⟨by simpa using h.1 ⟨400, "B"⟩ 400,
    h.2.2 "dial tcp: connection refused" 400⟩

end Golden
